import Mathlib

/-!
Shallow embedding of the role-based authorization core of the hostel
management backend (Express/Mongoose, TypeScript).  The definitions below
are translated from:
  - src/Backend/src/types/enum.ts        (PERMISSION, USER_ROLE, ROLE_HIERARCHY, ROLE_PERMISSIONS)
  - src/Backend/src/models/Role.ts       (role schema, defaults)
  - src/Backend/src/services/roleService.ts (RoleService methods)
  - src/Backend/src/middlewares/authMiddleware.ts (requirePermission)
  - src/Backend/src/middlewares/errorHandler.ts   (rateLimitAuth)
  - src/Backend/src/validations/roleValidation.ts (updateRoleSchema)
The Mongo collections are modelled as in-memory lists; `findOne`/`findById`
return the first matching record, `create` appends, errors thrown by the
service are modelled with `Except`.
-/

namespace HostelRBAC

/-- The PERMISSION enum from src/Backend/src/types/enum.ts. -/
inductive PERMISSION where
  | create_user | read_user | update_user | delete_user
  | manage_roles | assign_roles
  | manage_hotels | view_hotels
  | manage_bookings | view_bookings | create_booking
  | manage_rooms | view_rooms
  | manage_payments | view_payments
  | view_reports | export_data
  | manage_settings | view_logs
  deriving DecidableEq, Repr

open PERMISSION

/-- Object.values(USER_ROLE): a user role is a string; the three system role
names, in enum declaration order (student, teacher, admin). -/
def USER_ROLE_values : List String := ["student", "teacher", "admin"]

/-- ROLE_HIERARCHY from enum.ts: which roles a system role may manage;
indexing a key outside the record yields undefined, hence the final `[]`
(matching the `|| []` fallback at the use site). -/
def ROLE_HIERARCHY (r : String) : List String :=
  if r = "admin" then ["teacher", "student"]
  else if r = "teacher" then ["student"]
  else []

/-- ROLE_PERMISSIONS from enum.ts: the static permission bundle of each
system role (with the `|| []` fallback for any other name). -/
def ROLE_PERMISSIONS (r : String) : List PERMISSION :=
  if r = "admin" then
    [create_user, read_user, update_user, delete_user,
     manage_roles, assign_roles,
     manage_hotels, view_hotels,
     manage_bookings, view_bookings, create_booking,
     manage_rooms, view_rooms,
     manage_payments, view_payments,
     view_reports, export_data,
     manage_settings, view_logs]
  else if r = "teacher" then
    [read_user,
     view_hotels,
     manage_bookings, view_bookings, create_booking,
     manage_rooms, view_rooms,
     view_payments,
     view_reports]
  else if r = "student" then
    [view_hotels,
     view_bookings, create_booking,
     view_rooms,
     view_payments]
  else []

/-- A persisted Role document (src/Backend/src/models/Role.ts).  Schema
defaults: `isSystem := false`, `isActive := true`; `createdBy`/`updatedBy`
are optional ObjectId references (modelled as user-id strings). -/
structure RoleRecord where
  id : Nat
  name : String
  displayName : String
  description : Option String := none
  permissions : List PERMISSION
  isSystem : Bool := false
  isActive : Bool := true
  createdBy : Option String := none
  updatedBy : Option String := none
  deriving DecidableEq, Repr

/-- A persisted User document, restricted to the fields the authorization
core reads: `_id` and the `role` name string. -/
structure UserRecord where
  id : String
  role : String
  deriving DecidableEq, Repr

/-- The database state: the Role and User collections, plus a counter
standing in for ObjectId generation on Role.create. -/
structure Store where
  roles : List RoleRecord
  users : List UserRecord
  nextRoleId : Nat := 0
  deriving DecidableEq, Repr

def emptyStore : Store := { roles := [], users := [], nextRoleId := 0 }

/-- Role.findOne({ name }) — first record with the given name. -/
def Role_findOne_byName (s : Store) (name : String) : Option RoleRecord :=
  s.roles.find? (fun r => r.name == name)

/-- Role.findOne({ name, isActive: true }). -/
def Role_findOne_byNameActive (s : Store) (name : String) : Option RoleRecord :=
  s.roles.find? (fun r => r.name == name && r.isActive)

/-- Role.findById(roleId). -/
def Role_findById (s : Store) (roleId : Nat) : Option RoleRecord :=
  s.roles.find? (fun r => r.id == roleId)

/-- User.findById(userId). -/
def User_findById (s : Store) (userId : String) : Option UserRecord :=
  s.users.find? (fun u => u.id == userId)

/-- User.countDocuments({ role: roleName }). -/
def User_countDocuments_role (s : Store) (roleName : String) : Nat :=
  (s.users.filter (fun u => u.role == roleName)).length

/-- Whether a user id resolves to a document. -/
def userPresent (s : Store) (userId : String) : Bool :=
  (User_findById s userId).isSome

/-- Errors thrown by RoleService, one constructor per distinct `throw new
Error(...)` site reachable from the operations modelled here. -/
inductive ServiceError where
  | duplicateRoleName
  | roleNotFound
  | userNotFound
  | assigningUserNotFound
  | forbiddenSystemModify
  | forbiddenSystemDelete
  | conflictRoleInUse (count : Nat)
  | forbiddenAssign
  deriving DecidableEq, Repr

/-- RoleService.canAssignRole (roleService.ts lines 304-313): branches on
whether the ASSIGNER's role is a system role; for a system-role assigner it
checks the hierarchy (or self), otherwise it compares the assigner's role
to the literal admin name. -/
def canAssignRole (userRole targetRole : String) : Bool :=
  if USER_ROLE_values.contains userRole then
    (ROLE_HIERARCHY userRole).contains targetRole || userRole == targetRole
  else
    userRole == "admin"

/-- RoleService.getRolePermissions: active record lookup, falling back to
the static system-role table, else empty. -/
def getRolePermissions (s : Store) (roleName : String) : List PERMISSION :=
  match Role_findOne_byNameActive s roleName with
  | some role => role.permissions
  | none =>
    if USER_ROLE_values.contains roleName then ROLE_PERMISSIONS roleName
    else []

/-- RoleService.hasPermission: resolve the user, then membership in the
effective permission set; `false` when the user does not resolve. -/
def hasPermission (s : Store) (userId : String) (permission : PERMISSION) : Bool :=
  match User_findById s userId with
  | none => false
  | some user => (getRolePermissions s user.role).contains permission

/-- An entry of the `systemRoles` array hardcoded inside
RoleService.initializeSystemRoles. -/
structure SeedRole where
  name : String
  displayName : String
  description : String
  permissions : List PERMISSION
  isSystem : Bool
  deriving DecidableEq, Repr

/-- First entry of the `systemRoles` array of initializeSystemRoles. -/
def adminSeed : SeedRole :=
  { name := "admin",
    displayName := "Administrator",
    description := "Full system administrator with all permissions",
    permissions := ROLE_PERMISSIONS "admin",
    isSystem := true }

/-- Second entry of the `systemRoles` array of initializeSystemRoles. -/
def teacherSeed : SeedRole :=
  { name := "teacher",
    displayName := "Teacher",
    description := "Teacher with limited administrative permissions",
    permissions := ROLE_PERMISSIONS "teacher",
    isSystem := true }

/-- Third entry of the `systemRoles` array of initializeSystemRoles. -/
def studentSeed : SeedRole :=
  { name := "student",
    displayName := "Student",
    description := "Student with basic permissions",
    permissions := ROLE_PERMISSIONS "student",
    isSystem := true }

/-- The literal `systemRoles` array of initializeSystemRoles, in source
order (admin, teacher, student). -/
def systemRoles : List SeedRole := [adminSeed, teacherSeed, studentSeed]

/-- The three system role names in `systemRoles` order. -/
def systemNames : List String := ["admin", "teacher", "student"]

/-- One iteration of the loop in initializeSystemRoles: `Role.findOne({name})`,
and `Role.create` only when absent (createdBy omitted for system roles). -/
def initStep (s : Store) (rd : SeedRole) : Store :=
  match Role_findOne_byName s rd.name with
  | some _ => s
  | none =>
    { s with
      roles := s.roles ++
        [ { id := s.nextRoleId,
            name := rd.name,
            displayName := rd.displayName,
            description := some rd.description,
            permissions := rd.permissions,
            isSystem := rd.isSystem,
            isActive := true,
            createdBy := none,
            updatedBy := none } ],
      nextRoleId := s.nextRoleId + 1 }

/-- RoleService.initializeSystemRoles: the for-loop over `systemRoles`. -/
def initializeSystemRoles (s : Store) : Store :=
  systemRoles.foldl initStep s

/-- CreateRoleInput (createRoleSchema of roleValidation.ts): name,
displayName, optional description, non-empty permissions. -/
structure CreateRoleInput where
  name : String
  displayName : String
  description : Option String := none
  permissions : List PERMISSION
  deriving DecidableEq, Repr

/-- RoleService.createRole: uniqueness check on name, then create with
`createdBy` (schema defaults give isSystem false, isActive true). -/
def createRole (s : Store) (roleData : CreateRoleInput) (createdBy : String) :
    Except ServiceError (Store × RoleRecord) :=
  match Role_findOne_byName s roleData.name with
  | some _ => .error .duplicateRoleName
  | none =>
    let r : RoleRecord :=
      { id := s.nextRoleId,
        name := roleData.name,
        displayName := roleData.displayName,
        description := roleData.description,
        permissions := roleData.permissions,
        isSystem := false,
        isActive := true,
        createdBy := some createdBy,
        updatedBy := none }
    .ok ({ s with roles := s.roles ++ [r], nextRoleId := s.nextRoleId + 1 }, r)

/-- UpdateRoleInput (updateRoleSchema of roleValidation.ts): the only four
fields the update schema admits, each optional. -/
structure UpdateRoleInput where
  displayName : Option String := none
  description : Option String := none
  permissions : Option (List PERMISSION) := none
  isActive : Option Bool := none
  deriving DecidableEq, Repr

/-- The `{...updateData, updatedBy}` document passed to findByIdAndUpdate:
present patch fields overwrite, absent ones leave the record's value, and
`updatedBy` is always stamped. -/
def applyRoleUpdate (r : RoleRecord) (u : UpdateRoleInput) (updatedBy : String) : RoleRecord :=
  { r with
    displayName := u.displayName.getD r.displayName,
    description := match u.description with
      | some d => some d
      | none => r.description,
    permissions := u.permissions.getD r.permissions,
    isActive := u.isActive.getD r.isActive,
    updatedBy := some updatedBy }

/-- RoleService.updateRole: not-found check, isSystem guard, then
findByIdAndUpdate returning the new document. -/
def updateRole (s : Store) (roleId : Nat) (updateData : UpdateRoleInput) (updatedBy : String) :
    Except ServiceError (Store × RoleRecord) :=
  match Role_findById s roleId with
  | none => .error .roleNotFound
  | some role =>
    if role.isSystem then .error .forbiddenSystemModify
    else
      let updated := applyRoleUpdate role updateData updatedBy
      .ok ({ s with
              roles := s.roles.map (fun r => if r.id == roleId then updated else r) },
           updated)

/-- RoleService.deleteRole: not-found check, isSystem guard, the
countDocuments referential check carrying the count, then
findByIdAndDelete. -/
def deleteRole (s : Store) (roleId : Nat) : Except ServiceError Store :=
  match Role_findById s roleId with
  | none => .error .roleNotFound
  | some role =>
    if role.isSystem then .error .forbiddenSystemDelete
    else
      let usersWithRole := User_countDocuments_role s role.name
      if usersWithRole > 0 then .error (.conflictRoleInUse usersWithRole)
      else .ok { s with roles := s.roles.filter (fun r => !(r.id == roleId)) }

/-- AssignRoleInput (assignRoleSchema): userId and roleName. -/
structure AssignRoleInput where
  userId : String
  roleName : String
  deriving DecidableEq, Repr

/-- RoleService.assignRoleToUser: target user lookup, active role lookup,
assigner lookup, canAssignRole gate, then the role-field overwrite
returning the updated user. -/
def assignRoleToUser (s : Store) (assignData : AssignRoleInput) (assignedBy : String) :
    Except ServiceError (Store × UserRecord) :=
  match User_findById s assignData.userId with
  | none => .error .userNotFound
  | some user =>
    match Role_findOne_byNameActive s assignData.roleName with
    | none => .error .roleNotFound
    | some _role =>
      match User_findById s assignedBy with
      | none => .error .assigningUserNotFound
      | some assigningUser =>
        if canAssignRole assigningUser.role assignData.roleName then
          .ok ({ s with
                  users := s.users.map (fun u =>
                    if u.id == assignData.userId then { u with role := assignData.roleName } else u) },
               { user with role := assignData.roleName })
        else .error .forbiddenAssign

/-- BulkAssignRoleInput (bulkAssignRoleSchema): userIds and roleName. -/
structure BulkAssignRoleInput where
  userIds : List String
  roleName : String
  deriving DecidableEq, Repr

/-- An entry of the `failed` list of bulkAssignRole. -/
structure BulkFailure where
  userId : String
  error : String
  deriving DecidableEq, Repr

/-- The body of bulkAssignRole's per-user loop: a missing user is pushed to
`failed` and the loop continues; a found user gets the role written. -/
def bulkStep (roleName : String) (acc : Store × List String × List BulkFailure)
    (userId : String) : Store × List String × List BulkFailure :=
  match User_findById acc.1 userId with
  | none => (acc.1, acc.2.1, acc.2.2 ++ [{ userId := userId, error := "User not found" }])
  | some _ =>
    ({ acc.1 with
        users := acc.1.users.map (fun u =>
          if u.id == userId then { u with role := roleName } else u) },
     acc.2.1 ++ [userId], acc.2.2)

/-- RoleService.bulkAssignRole: batch-level active-role and assigner
checks, the canAssignRole gate, then the per-user collecting loop. -/
def bulkAssignRole (s : Store) (assignData : BulkAssignRoleInput) (assignedBy : String) :
    Except ServiceError (Store × List String × List BulkFailure) :=
  match Role_findOne_byNameActive s assignData.roleName with
  | none => .error .roleNotFound
  | some _role =>
    match User_findById s assignedBy with
    | none => .error .assigningUserNotFound
    | some assigningUser =>
      if canAssignRole assigningUser.role assignData.roleName then
        .ok (assignData.userIds.foldl (bulkStep assignData.roleName) (s, [], []))
      else .error .forbiddenAssign

/-- Outcome of the Promise.race in AuthMiddleware.requirePermission: the
permission evaluation completes first, the 5-second timeout resolves first
(to `false`), or the evaluation rejects (caught by the try/catch).  The
race winner is chosen by the environment; the rest is deterministic. -/
inductive RaceOutcome where
  | evalCompletes
  | timeoutFires
  | evalThrows
  deriving DecidableEq, Repr

/-- Responses a middleware can produce: call next(), or end with 401, 403
or 500. -/
inductive MiddlewareResponse where
  | proceed
  | unauthorized
  | forbidden
  | internalError
  deriving DecidableEq, Repr

/-- AuthMiddleware.requirePermission (authMiddleware.ts lines 113-153):
401 without req.user; otherwise race `Promise.all` of per-permission
hasPermission checks against a 5s timeout resolving false; allow when the
completed results contain a true (`some(Boolean)`), 403 otherwise (also
when the timeout wins, since `false` is not an array and is falsy), and
500 from the catch when evaluation throws. -/
def requirePermission (s : Store) (reqUser : Option String) (permissions : List PERMISSION)
    (outcome : RaceOutcome) : MiddlewareResponse :=
  match reqUser with
  | none => .unauthorized
  | some userId =>
    match outcome with
    | .evalThrows => .internalError
    | .timeoutFires => .forbidden
    | .evalCompletes =>
      if (permissions.map (fun p => hasPermission s userId p)).any (fun b => b) then
        .proceed
      else .forbidden

/-- An entry of the `attempts` Map in rateLimitAuth. -/
structure RateEntry where
  count : Nat
  resetTime : Nat
  deriving DecidableEq, Repr

/-- The `attempts` Map of rateLimitAuth, as an insertion-ordered
association list (JS Map semantics). -/
structure RateState where
  attempts : List (String × RateEntry)
  deriving DecidableEq, Repr

/-- Result of one pass through the rate limiter: next(), or a 429 with the
computed remaining-minutes hint. -/
inductive RateResult where
  | next
  | tooMany (remainingMinutes : Nat)
  deriving DecidableEq, Repr

/-- The `${ip}:${email}` key. -/
def rateLimitKey (ip email : String) : String := ip ++ ":" ++ email

/-- attempts.get(key). -/
def attemptsGet (st : RateState) (key : String) : Option RateEntry :=
  (st.attempts.find? (fun kv => kv.1 == key)).map Prod.snd

/-- attempts.set(key, e) (also covers the in-place `userAttempts.count++`
mutation): replace the entry when the key is present, append otherwise. -/
def attemptsSet (st : RateState) (key : String) (e : RateEntry) : RateState :=
  if st.attempts.any (fun kv => kv.1 == key) then
    { attempts := st.attempts.map (fun kv => if kv.1 == key then (key, e) else kv) }
  else
    { attempts := st.attempts ++ [(key, e)] }

/-- One request through rateLimitAuth (errorHandler.ts lines 405-444),
with `now` in milliseconds: fresh or expired key starts a window of size
windowMs with count 1; at or above maxAttempts within the window respond
429 with `Math.ceil((resetTime - now) / 60000)` minutes; otherwise
increment and continue. -/
def rateLimitAuth (maxAttempts windowMs : Nat) (st : RateState) (ip email : String)
    (now : Nat) : RateState × RateResult :=
  let key := rateLimitKey ip email
  match attemptsGet st key with
  | none => (attemptsSet st key { count := 1, resetTime := now + windowMs }, .next)
  | some userAttempts =>
    if userAttempts.resetTime < now then
      (attemptsSet st key { count := 1, resetTime := now + windowMs }, .next)
    else if maxAttempts ≤ userAttempts.count then
      (st, .tooMany ((userAttempts.resetTime - now + 59999) / 60000))
    else
      (attemptsSet st key
        { count := userAttempts.count + 1, resetTime := userAttempts.resetTime }, .next)

/-- A run of the same middleware closure over a sequence of request times
for one (ip, email) pair, collecting the per-request results. -/
def runRateLimiter (maxAttempts windowMs : Nat) (ip email : String) :
    RateState → List Nat → RateState × List RateResult
  | st, [] => (st, [])
  | st, t :: ts =>
    match rateLimitAuth maxAttempts windowMs st ip email t with
    | (st1, r) =>
      match runRateLimiter maxAttempts windowMs ip email st1 ts with
      | (st2, rs) => (st2, r :: rs)

/-- A raw JSON field value as far as updateRoleSchema distinguishes them:
a string, a boolean, a permission array, or anything else. -/
inductive RawValue where
  | vstr (s : String)
  | vbool (b : Bool)
  | vperms (l : List PERMISSION)
  | vother
  deriving DecidableEq, Repr

/-- The keys updateRoleSchema declares. -/
def updateRoleKnownKeys : List String := ["displayName", "description", "permissions", "isActive"]

/-- Lookup of a key in a raw JSON object (association list). -/
def lookupRaw (raw : List (String × RawValue)) (k : String) : Option RawValue :=
  (raw.find? (fun kv => kv.1 == k)).map Prod.snd

/-- Validation of the optional `displayName` field of updateRoleSchema. -/
def parseDisplayName (raw : List (String × RawValue)) : Option (Option String) :=
  match lookupRaw raw "displayName" with
  | some (RawValue.vstr dn) =>
    if 2 ≤ dn.length ∧ dn.length ≤ 100 then some (some dn) else none
  | some _ => none
  | none => some none

/-- Validation of the optional `description` field of updateRoleSchema. -/
def parseDescription (raw : List (String × RawValue)) : Option (Option String) :=
  match lookupRaw raw "description" with
  | some (RawValue.vstr ds) => if ds.length ≤ 500 then some (some ds) else none
  | some _ => none
  | none => some none

/-- Validation of the optional `permissions` field of updateRoleSchema. -/
def parsePermissions (raw : List (String × RawValue)) : Option (Option (List PERMISSION)) :=
  match lookupRaw raw "permissions" with
  | some (RawValue.vperms ps) => if 1 ≤ ps.length then some (some ps) else none
  | some _ => none
  | none => some none

/-- Validation of the optional `isActive` field of updateRoleSchema. -/
def parseIsActive (raw : List (String × RawValue)) : Option (Option Bool) :=
  match lookupRaw raw "isActive" with
  | some (RawValue.vbool b) => some (some b)
  | some _ => none
  | none => some none

/-- updateRoleSchema.parse (roleValidation.ts): each declared key is
optional but validated when present; zod's default object behaviour strips
every undeclared key, so only the four declared keys are consulted. -/
def updateRoleSchema_parse (raw : List (String × RawValue)) : Option UpdateRoleInput :=
  match parseDisplayName raw, parseDescription raw, parsePermissions raw, parseIsActive raw with
  | some dn, some ds, some ps, some ia =>
    some { displayName := dn, description := ds, permissions := ps, isActive := ia }
  | _, _, _, _ => none

/-! Fixture stores used to evaluate the operations at concrete inputs. -/

/-- The store after server bootstrap: the three seeded system roles. -/
def seededStore : Store := initializeSystemRoles emptyStore

/-- A custom role as an admin would create it. -/
def moderatorRole : RoleRecord :=
  { id := 3, name := "moderator", displayName := "Moderator",
    permissions := [PERMISSION.view_hotels, PERMISSION.view_bookings],
    createdBy := some "adm1" }

/-- Seeded store plus the custom `moderator` role, a student `u1` and an
admin `adm1`. -/
def storeWithModerator : Store :=
  { seededStore with
    roles := seededStore.roles ++ [moderatorRole],
    users := [{ id := "u1", role := "student" }, { id := "adm1", role := "admin" }] }

/-- A store whose only user carries a role name that resolves to no Role
record and is not a system role. -/
def ghostRoleStore : Store :=
  { roles := [], users := [{ id := "u2", role := "ghost" }], nextRoleId := 0 }

/-- Membership in Object.values(USER_ROLE) unfolded to the three names. -/
theorem mem_USER_ROLE_iff (n : String) :
    n ∈ USER_ROLE_values ↔ (n = "admin" ∨ n = "teacher" ∨ n = "student") := by
  simp [USER_ROLE_values]
  tauto

/-- C1: the spec requires an admin assigner to be able to assign every
active custom role, but canAssignRole branches on the assigner's role
being a system role, so the custom-role branch is unreachable for admins:
with the active custom role `moderator` in the store, an admin's
assignment is rejected with the Forbidden error. -/
theorem canAssignRole_admin_custom_role_denied :
    canAssignRole "admin" "moderator" = false ∧
    Role_findOne_byNameActive storeWithModerator "moderator" = some moderatorRole ∧
    assignRoleToUser storeWithModerator { userId := "u1", roleName := "moderator" } "adm1"
      = .error .forbiddenAssign :=
  ⟨rfl, rfl, rfl⟩

/-- C2: getRolePermissions resolves, in order: the permissions of the
matching active Role record when one exists; else the static table entry
when the name is one of the three system roles; else the empty set. -/
theorem getRolePermissions_resolution (s : Store) (n : String) :
    (∃ r, Role_findOne_byNameActive s n = some r ∧ getRolePermissions s n = r.permissions)
    ∨ (Role_findOne_byNameActive s n = none ∧ (n = "admin" ∨ n = "teacher" ∨ n = "student")
        ∧ getRolePermissions s n = ROLE_PERMISSIONS n)
    ∨ (Role_findOne_byNameActive s n = none ∧ ¬(n = "admin" ∨ n = "teacher" ∨ n = "student")
        ∧ getRolePermissions s n = []) := by
  cases h : Role_findOne_byNameActive s n with
  | some r =>
    exact Or.inl ⟨r, rfl, by simp [getRolePermissions, h]⟩
  | none =>
    by_cases hm : n ∈ USER_ROLE_values
    · exact Or.inr (Or.inl ⟨rfl, (mem_USER_ROLE_iff n).mp hm,
        by simp [getRolePermissions, h, hm]⟩)
    · refine Or.inr (Or.inr ⟨rfl, fun hc => hm ((mem_USER_ROLE_iff n).mpr hc), ?_⟩)
      simp [getRolePermissions, h, hm]

/-- C3: with an authenticated request, requirePermission allows exactly
when the evaluation wins the race and some permission in the list checks
true (OR semantics); a timeout win denies with Forbidden, and a thrown
evaluation yields InternalError. -/
theorem requirePermission_or_semantics (s : Store) (uid : String) (perms : List PERMISSION)
    (outcome : RaceOutcome) :
    (requirePermission s (some uid) perms outcome = .proceed ↔
      outcome = .evalCompletes ∧ ∃ p ∈ perms, hasPermission s uid p = true)
    ∧ (outcome = .timeoutFires → requirePermission s (some uid) perms outcome = .forbidden)
    ∧ (outcome = .evalThrows → requirePermission s (some uid) perms outcome = .internalError) := by
  cases outcome with
  | evalCompletes =>
    refine ⟨?_, ?_, ?_⟩
    · by_cases h : ∃ p ∈ perms, hasPermission s uid p = true
      · simp [requirePermission, h]
      · simp [requirePermission, h]
    · intro h
      cases h
    · intro h
      cases h
  | timeoutFires =>
    refine ⟨by simp [requirePermission], fun _ => rfl, ?_⟩
    intro h
    cases h
  | evalThrows =>
    refine ⟨by simp [requirePermission], ?_, fun _ => rfl⟩
    intro h
    cases h

/-- Witness for C3: concrete evaluations of the three outcomes on the
seeded store with the student user. -/
theorem requirePermission_or_semantics_witness :
    requirePermission storeWithModerator (some "u1") [PERMISSION.view_hotels]
      RaceOutcome.evalCompletes = .proceed ∧
    requirePermission storeWithModerator (some "u1") [PERMISSION.view_hotels]
      RaceOutcome.timeoutFires = .forbidden ∧
    requirePermission storeWithModerator (some "u1") [PERMISSION.view_hotels]
      RaceOutcome.evalThrows = .internalError :=
  ⟨(requirePermission_or_semantics storeWithModerator "u1" [PERMISSION.view_hotels]
      RaceOutcome.evalCompletes).1.mpr
      ⟨rfl, PERMISSION.view_hotels, by simp, by rfl⟩,
   (requirePermission_or_semantics storeWithModerator "u1" [PERMISSION.view_hotels]
      RaceOutcome.timeoutFires).2.1 rfl,
   (requirePermission_or_semantics storeWithModerator "u1" [PERMISSION.view_hotels]
      RaceOutcome.evalThrows).2.2 rfl⟩

/-- C7: hasPermission is a total boolean function; it returns false when
the user id does not resolve, and also when the user's stored role name
has no active Role record and is not one of the three system roles. -/
theorem hasPermission_fail_closed (s : Store) (uid : String) (p : PERMISSION) :
    (User_findById s uid = none → hasPermission s uid p = false)
    ∧ (∀ u, User_findById s uid = some u →
        Role_findOne_byNameActive s u.role = none →
        ¬(u.role = "admin" ∨ u.role = "teacher" ∨ u.role = "student") →
        hasPermission s uid p = false) := by
  constructor
  · intro h
    simp [hasPermission, h]
  · intro u hu hr hrole
    have hm : u.role ∉ USER_ROLE_values :=
      fun hc => hrole ((mem_USER_ROLE_iff u.role).mp hc)
    simp [hasPermission, hu, getRolePermissions, hr, hm]

/-- Witness for C7: a missing user in the empty store, and a user whose
stored role resolves nowhere. -/
theorem hasPermission_fail_closed_witness :
    hasPermission emptyStore "u1" PERMISSION.view_hotels = false ∧
    hasPermission ghostRoleStore "u2" PERMISSION.view_hotels = false :=
  ⟨(hasPermission_fail_closed emptyStore "u1" PERMISSION.view_hotels).1 rfl,
   (hasPermission_fail_closed ghostRoleStore "u2" PERMISSION.view_hotels).2
     { id := "u2", role := "ghost" } rfl rfl (by decide)⟩

/-- A hand edit of the seeded admin record's permissions between two runs
of the initializer. -/
def handEditedStore : Store :=
  { seededStore with
    roles := seededStore.roles.map (fun r =>
      if r.name == "admin" then { r with permissions := [PERMISSION.view_hotels] } else r) }

/-- The loop body does nothing when the seed's name already resolves. -/
theorem initStep_of_present (s : Store) (rd : SeedRole)
    (h : (Role_findOne_byName s rd.name).isSome = true) : initStep s rd = s := by
  unfold initStep
  cases heq : Role_findOne_byName s rd.name with
  | some v => rfl
  | none => rw [heq] at h; cases h

/-- The loop body never removes a resolvable name. -/
theorem initStep_preserves_present (s : Store) (rd : SeedRole) (n : String)
    (h : (Role_findOne_byName s n).isSome = true) :
    (Role_findOne_byName (initStep s rd) n).isSome = true := by
  unfold initStep
  cases heq : Role_findOne_byName s rd.name with
  | some v => exact h
  | none =>
    obtain ⟨v, hv⟩ := Option.isSome_iff_exists.mp h
    unfold Role_findOne_byName at hv ⊢
    simp [List.find?_append, hv]

/-- After the loop body for a seed, the seed's name resolves. -/
theorem initStep_creates (s : Store) (rd : SeedRole) :
    (Role_findOne_byName (initStep s rd) rd.name).isSome = true := by
  unfold initStep
  cases heq : Role_findOne_byName s rd.name with
  | some v => simp [heq]
  | none =>
    unfold Role_findOne_byName at heq ⊢
    simp [List.find?_append, heq]

/-- After a full run, every system role name resolves. -/
theorem initializeSystemRoles_names_present (s : Store) :
    ∀ n ∈ systemNames, (Role_findOne_byName (initializeSystemRoles s) n).isSome = true := by
  intro n hn
  show (Role_findOne_byName (systemRoles.foldl initStep s) n).isSome = true
  simp only [systemRoles, List.foldl]
  have hn3 : n = "admin" ∨ n = "teacher" ∨ n = "student" := by
    simpa [systemNames] using hn
  rcases hn3 with rfl | rfl | rfl
  · exact initStep_preserves_present _ _ _
      (initStep_preserves_present _ _ _ (initStep_creates s adminSeed))
  · exact initStep_preserves_present _ _ _ (initStep_creates (initStep s adminSeed) teacherSeed)
  · exact initStep_creates (initStep (initStep s adminSeed) teacherSeed) studentSeed

/-- C4: initializeSystemRoles is idempotent.  From the empty store two runs
leave exactly the three system-role records; a store in which every system
role name already resolves (in particular one whose records were
hand-edited between runs) is returned unchanged; and running twice equals
running once on any store. -/
theorem initializeSystemRoles_idempotent :
    ((initializeSystemRoles (initializeSystemRoles emptyStore)).roles.map
        (fun r => (r.name, r.isSystem)) = [("admin", true), ("teacher", true), ("student", true)])
    ∧ (∀ s : Store, (∀ n ∈ systemNames, (Role_findOne_byName s n).isSome = true) →
        initializeSystemRoles s = s)
    ∧ (∀ s : Store, initializeSystemRoles (initializeSystemRoles s) = initializeSystemRoles s) := by
  have hfix : ∀ s : Store, (∀ n ∈ systemNames, (Role_findOne_byName s n).isSome = true) →
      initializeSystemRoles s = s := by
    intro s h
    have ha := h "admin" (by simp [systemNames])
    have ht := h "teacher" (by simp [systemNames])
    have hs := h "student" (by simp [systemNames])
    show systemRoles.foldl initStep s = s
    simp only [systemRoles, List.foldl]
    rw [initStep_of_present s adminSeed ha, initStep_of_present s teacherSeed ht,
        initStep_of_present s studentSeed hs]
  exact ⟨by decide, hfix,
    fun s => hfix (initializeSystemRoles s) (initializeSystemRoles_names_present s)⟩

/-- Witness for C4: a second run on the seeded store whose admin record's
permissions were hand-edited leaves the store untouched. -/
theorem initializeSystemRoles_idempotent_witness :
    initializeSystemRoles handEditedStore = handEditedStore :=
  initializeSystemRoles_idempotent.2.1 handEditedStore (by decide)

/-- A store in which the custom `moderator` role is still referenced by
two users. -/
def conflictStore : Store :=
  { roles := [moderatorRole],
    users := [{ id := "u1", role := "moderator" }, { id := "u2", role := "moderator" }],
    nextRoleId := 4 }

/-- The same store after both users were reassigned away. -/
def freedStore : Store :=
  { roles := [moderatorRole],
    users := [{ id := "u1", role := "student" }, { id := "u2", role := "student" }],
    nextRoleId := 4 }

/-- C5: deleting a non-system role referenced by n ≥ 1 users fails with the
Conflict error carrying exactly n (and, the result being an error, no
store mutation is produced); with n = 0 the same call succeeds, the record
is removed and the users are untouched. -/
theorem deleteRole_conflict_count (s : Store) (rid : Nat) (r : RoleRecord)
    (hfind : Role_findById s rid = some r) (hsys : r.isSystem = false) :
    (0 < User_countDocuments_role s r.name →
      deleteRole s rid = .error (.conflictRoleInUse (User_countDocuments_role s r.name)))
    ∧ (User_countDocuments_role s r.name = 0 →
      deleteRole s rid = .ok { s with roles := s.roles.filter (fun x => !(x.id == rid)) }
      ∧ ∀ s', deleteRole s rid = .ok s' →
          Role_findById s' rid = none ∧ s'.users = s.users) := by
  constructor
  · intro hpos
    simp [deleteRole, hfind, hsys, hpos]
  · intro hzero
    have hok : deleteRole s rid
        = .ok { s with roles := s.roles.filter (fun x => !(x.id == rid)) } := by
      simp [deleteRole, hfind, hsys, hzero]
    refine ⟨hok, ?_⟩
    intro s' hs'
    rw [hok] at hs'
    cases hs'
    constructor
    · unfold Role_findById
      rw [List.find?_eq_none]
      intro x hx
      have := (List.mem_filter.mp hx).2
      simp at this ⊢
      exact this
    · rfl

/-- Witness for C5: with two users on `moderator` the delete fails with
count 2; after reassigning both away it succeeds and drops the record. -/
theorem deleteRole_conflict_count_witness :
    deleteRole conflictStore 3 = .error (.conflictRoleInUse 2) ∧
    deleteRole freedStore 3
      = .ok { roles := [], users := freedStore.users, nextRoleId := 4 } :=
  ⟨(deleteRole_conflict_count conflictStore 3 moderatorRole rfl rfl).1 (by decide),
   ((deleteRole_conflict_count freedStore 3 moderatorRole rfl rfl).2 (by decide)).1⟩

/-- Replacing the found element of a list by one with the same id keeps it
the first match of the id predicate. -/
theorem find?_map_replace (l : List RoleRecord) (rid : Nat) (r u : RoleRecord)
    (h : l.find? (fun x => x.id == rid) = some r) (hu : u.id = r.id) :
    (l.map (fun x => if x.id == rid then u else x)).find? (fun x => x.id == rid) = some u := by
  induction l with
  | nil => cases h
  | cons a t ih =>
    by_cases ha : (a.id == rid) = true
    · rw [List.find?_cons_of_pos t ha] at h
      cases h
      have hu' : (u.id == rid) = true := by
        rw [beq_iff_eq] at ha ⊢
        rw [hu]
        exact ha
      rw [List.map_cons, if_pos ha]
      exact List.find?_cons_of_pos _ hu'
    · rw [List.find?_cons_of_neg t ha] at h
      rw [List.map_cons, if_neg ha]
      have hneg : List.find? (fun x => x.id == rid)
          (a :: List.map (fun x => if (x.id == rid) = true then u else x) t)
          = List.find? (fun x => x.id == rid)
            (List.map (fun x => if (x.id == rid) = true then u else x) t) :=
        List.find?_cons_of_neg _ ha
      rw [hneg]
      exact ih h

/-- C8: updateRole and deleteRole reject system roles with their Forbidden
errors (the Except result carrying no mutated store), while on a custom
role updateRole succeeds, merging exactly the patch fields and stamping
updatedBy, and deleteRole succeeds when no user references the role. -/
theorem updateRole_deleteRole_system_guard :
    (∀ (s : Store) (rid : Nat) (r : RoleRecord) (patch : UpdateRoleInput) (ub : String),
      Role_findById s rid = some r → r.isSystem = true →
      updateRole s rid patch ub = .error .forbiddenSystemModify)
    ∧ (∀ (s : Store) (rid : Nat) (r : RoleRecord),
      Role_findById s rid = some r → r.isSystem = true →
      deleteRole s rid = .error .forbiddenSystemDelete)
    ∧ (∀ (s : Store) (rid : Nat) (r : RoleRecord) (patch : UpdateRoleInput) (ub : String),
      Role_findById s rid = some r → r.isSystem = false →
      (updateRole s rid patch ub).isOk = true
      ∧ ∀ s' upd, updateRole s rid patch ub = .ok (s', upd) →
          upd.displayName = patch.displayName.getD r.displayName
          ∧ upd.description = (match patch.description with
              | some d => some d
              | none => r.description)
          ∧ upd.permissions = patch.permissions.getD r.permissions
          ∧ upd.isActive = patch.isActive.getD r.isActive
          ∧ upd.updatedBy = some ub)
    ∧ (∀ (s : Store) (rid : Nat) (r : RoleRecord),
      Role_findById s rid = some r → r.isSystem = false →
      User_countDocuments_role s r.name = 0 → (deleteRole s rid).isOk = true) := by
  refine ⟨?_, ?_, ?_, ?_⟩
  · intro s rid r patch ub hfind hsys
    simp [updateRole, hfind, hsys]
  · intro s rid r hfind hsys
    simp [deleteRole, hfind, hsys]
  · intro s rid r patch ub hfind hsys
    have hok : updateRole s rid patch ub
        = .ok ({ s with roles := s.roles.map (fun x =>
                  if x.id == rid then applyRoleUpdate r patch ub else x) },
               applyRoleUpdate r patch ub) := by
      simp [updateRole, hfind, hsys]
    refine ⟨by rw [hok]; rfl, ?_⟩
    intro s' upd h
    rw [hok] at h
    cases h
    exact ⟨rfl, rfl, rfl, rfl, rfl⟩
  · intro s rid r hfind hsys hzero
    have hok : deleteRole s rid
        = .ok { s with roles := s.roles.filter (fun x => !(x.id == rid)) } := by
      simp [deleteRole, hfind, hsys, hzero]
    rw [hok]
    rfl

/-- Witness for C8: the seeded admin role (id 0, isSystem) rejects update
and delete; the custom `moderator` role accepts both. -/
theorem updateRole_deleteRole_system_guard_witness :
    updateRole seededStore 0 { displayName := some "Root" } "adm1"
      = .error .forbiddenSystemModify
    ∧ deleteRole seededStore 0 = .error .forbiddenSystemDelete
    ∧ (updateRole storeWithModerator 3 { displayName := some "Root" } "adm1").isOk = true
    ∧ (deleteRole storeWithModerator 3).isOk = true :=
  ⟨updateRole_deleteRole_system_guard.1 seededStore 0
      (seededStore.roles.head (by decide)) { displayName := some "Root" } "adm1" rfl rfl,
   updateRole_deleteRole_system_guard.2.1 seededStore 0
      (seededStore.roles.head (by decide)) rfl rfl,
   (updateRole_deleteRole_system_guard.2.2.1 storeWithModerator 3 moderatorRole
      { displayName := some "Root" } "adm1" rfl rfl).1,
   updateRole_deleteRole_system_guard.2.2.2 storeWithModerator 3 moderatorRole rfl rfl
      (by decide)⟩

/-- Filtering by a predicate that holds wherever the search predicate does
leaves find? unchanged. -/
theorem find?_filter_of_imp {α : Type} (l : List α) (p q : α → Bool)
    (h : ∀ x, p x = true → q x = true) : (l.filter q).find? p = l.find? p := by
  induction l with
  | nil => rfl
  | cons a t ih =>
    by_cases hq : q a = true
    · rw [List.filter_cons_of_pos hq]
      by_cases hp : p a = true
      · rw [List.find?_cons_of_pos _ hp, List.find?_cons_of_pos _ hp]
      · rw [List.find?_cons_of_neg _ hp, List.find?_cons_of_neg _ hp]
        exact ih
    · have hp : ¬ p a = true := fun hpa => hq (h a hpa)
      rw [List.filter_cons_of_neg hq, List.find?_cons_of_neg _ hp]
      exact ih

/-- Stripping undeclared keys does not change the lookup of a declared
key. -/
theorem lookupRaw_filter_known (raw : List (String × RawValue)) (k : String)
    (hk : updateRoleKnownKeys.contains k = true) :
    lookupRaw (raw.filter (fun kv => updateRoleKnownKeys.contains kv.1)) k
      = lookupRaw raw k := by
  unfold lookupRaw
  rw [find?_filter_of_imp]
  intro x hx
  rw [beq_iff_eq] at hx
  rw [hx]
  exact hk

/-- The concrete patch used to exercise the update path. -/
def patchX : UpdateRoleInput := { displayName := some "Senior Moderator" }

/-- A raw update body carrying a declared field next to a `name` rename
attempt and a junk key. -/
def rawPatchX : List (String × RawValue) :=
  [("displayName", RawValue.vstr "Senior Moderator"),
   ("name", RawValue.vstr "evil"),
   ("hax", RawValue.vother)]

/-- The moderator record after `patchX` is applied by an update. -/
def moderatorPatched : RoleRecord := applyRoleUpdate moderatorRole patchX "adm1"

/-- The store after the moderator update. -/
def storePatched : Store :=
  { storeWithModerator with
    roles := storeWithModerator.roles.map (fun x => if x.id == 3 then moderatorPatched else x) }

/-- C10: updateRoleSchema consults only its four declared keys, so parsing
is unchanged when every undeclared key is stripped; and any updateRole call
whose patch comes from that schema leaves the target's name, isSystem flag
and createdBy reference unchanged (the updated record keeps them and stays
the record found at the same id). -/
theorem updateRole_frame :
    (∀ raw : List (String × RawValue),
      updateRoleSchema_parse raw
        = updateRoleSchema_parse (raw.filter (fun kv => updateRoleKnownKeys.contains kv.1)))
    ∧ (∀ (patch : UpdateRoleInput) (s : Store) (rid : Nat) (r : RoleRecord) (ub : String)
        (s' : Store) (upd : RoleRecord),
        Role_findById s rid = some r →
        updateRole s rid patch ub = .ok (s', upd) →
        upd.name = r.name ∧ upd.isSystem = r.isSystem ∧ upd.createdBy = r.createdBy
        ∧ Role_findById s' rid = some upd) := by
  constructor
  · intro raw
    have h1 := lookupRaw_filter_known raw "displayName" (by decide)
    have h2 := lookupRaw_filter_known raw "description" (by decide)
    have h3 := lookupRaw_filter_known raw "permissions" (by decide)
    have h4 := lookupRaw_filter_known raw "isActive" (by decide)
    unfold updateRoleSchema_parse parseDisplayName parseDescription parsePermissions parseIsActive
    rw [h1, h2, h3, h4]
  · intro patch s rid r ub s' upd hfind hok
    by_cases hb : r.isSystem = true
    · simp [updateRole, hfind, hb] at hok
    · have hbf : r.isSystem = false := by
        revert hb
        cases r.isSystem <;> simp
      simp [updateRole, hfind, hbf] at hok
      obtain ⟨hs', hupd⟩ := hok
      subst hs'
      subst hupd
      refine ⟨rfl, rfl, rfl, ?_⟩
      have h := find?_map_replace s.roles rid r (applyRoleUpdate r patch ub) hfind rfl
      simp only [beq_iff_eq] at h
      exact h

/-- Witness for C10: the raw body with a rename attempt parses the same
after stripping, and the concrete moderator update keeps name, isSystem
and createdBy. -/
theorem updateRole_frame_witness :
    updateRoleSchema_parse rawPatchX
      = updateRoleSchema_parse (rawPatchX.filter (fun kv => updateRoleKnownKeys.contains kv.1))
    ∧ moderatorPatched.name = moderatorRole.name
    ∧ moderatorPatched.isSystem = moderatorRole.isSystem
    ∧ moderatorPatched.createdBy = moderatorRole.createdBy
    ∧ Role_findById storePatched 3 = some moderatorPatched :=
  ⟨updateRole_frame.1 rawPatchX,
   updateRole_frame.2 patchX storeWithModerator 3 moderatorRole "adm1"
     storePatched moderatorPatched rfl rfl⟩

/-- Mapping an id-preserving function over the users leaves id-lookup
success unchanged. -/
theorem find?_isSome_map_of_id (l : List UserRecord) (f : UserRecord → UserRecord)
    (hf : ∀ u, (f u).id = u.id) (x : String) :
    ((l.map f).find? (fun u => u.id == x)).isSome
      = (l.find? (fun u => u.id == x)).isSome := by
  induction l with
  | nil => rfl
  | cons a t ih =>
    rw [List.map_cons]
    by_cases ha : (a.id == x) = true
    · have hfa : ((f a).id == x) = true := by
        rw [beq_iff_eq] at ha ⊢
        rw [hf a]
        exact ha
      have h1 : List.find? (fun u => u.id == x) (f a :: t.map f) = some (f a) :=
        List.find?_cons_of_pos _ hfa
      have h2 : List.find? (fun u => u.id == x) (a :: t) = some a :=
        List.find?_cons_of_pos _ ha
      rw [h1, h2]
      rfl
    · have hfa : ¬ ((f a).id == x) = true := by
        rw [beq_iff_eq] at ha ⊢
        rw [hf a]
        exact ha
      have h1 : List.find? (fun u => u.id == x) (f a :: t.map f)
          = List.find? (fun u => u.id == x) (t.map f) :=
        List.find?_cons_of_neg _ hfa
      have h2 : List.find? (fun u => u.id == x) (a :: t)
          = List.find? (fun u => u.id == x) t :=
        List.find?_cons_of_neg _ ha
      rw [h1, h2]
      exact ih

/-- One loop iteration of bulkAssignRole never changes which user ids
resolve. -/
theorem bulkStep_presence (roleName : String) (st : Store) (succ : List String)
    (fails : List BulkFailure) (uid x : String) :
    userPresent (bulkStep roleName (st, succ, fails) uid).1 x = userPresent st x := by
  unfold bulkStep
  cases hfind : User_findById st uid with
  | none => rfl
  | some u =>
    unfold userPresent User_findById
    exact find?_isSome_map_of_id st.users _
      (fun v => by by_cases h : (v.id == uid) = true <;> simp [h]) x

/-- The collecting loop of bulkAssignRole: starting from any store that
resolves the same ids as `s`, it appends exactly the resolvable ids to
`success` and one "User not found" entry per unresolvable id to `failed`. -/
theorem bulkFold_spec (roleName : String) (s : Store) (ids : List String) :
    ∀ (st : Store) (succ : List String) (fails : List BulkFailure),
    (∀ x, userPresent st x = userPresent s x) →
    (ids.foldl (bulkStep roleName) (st, succ, fails)).2.1
        = succ ++ ids.filter (fun uid => userPresent s uid)
    ∧ (ids.foldl (bulkStep roleName) (st, succ, fails)).2.2
        = fails ++ (ids.filter (fun uid => !(userPresent s uid))).map
            (fun uid => { userId := uid, error := "User not found" }) := by
  induction ids with
  | nil =>
    intro st succ fails hp
    simp
  | cons uid rest ih =>
    intro st succ fails hp
    rw [List.foldl_cons]
    cases hfind : User_findById st uid with
    | none =>
      have hup : userPresent s uid = false := by
        rw [← hp uid]
        unfold userPresent
        rw [hfind]
        rfl
      have hstep : bulkStep roleName (st, succ, fails) uid
          = (st, succ, fails ++ [{ userId := uid, error := "User not found" }]) := by
        unfold bulkStep
        rw [hfind]
      rw [hstep]
      obtain ⟨h1, h2⟩ := ih st succ (fails ++ [{ userId := uid, error := "User not found" }]) hp
      constructor
      · rw [h1]
        have hcons : List.filter (fun u => userPresent s u) (uid :: rest)
            = List.filter (fun u => userPresent s u) rest :=
          List.filter_cons_of_neg (by simp [hup])
        rw [hcons]
      · rw [h2]
        have hcons : List.filter (fun u => !(userPresent s u)) (uid :: rest)
            = uid :: List.filter (fun u => !(userPresent s u)) rest :=
          List.filter_cons_of_pos (by simp [hup])
        rw [hcons, List.map_cons]
        simp
    | some u =>
      have hup : userPresent s uid = true := by
        rw [← hp uid]
        unfold userPresent
        rw [hfind]
        rfl
      have hp' : ∀ x, userPresent (bulkStep roleName (st, succ, fails) uid).1 x
          = userPresent s x :=
        fun x => (bulkStep_presence roleName st succ fails uid x).trans (hp x)
      have hstep : bulkStep roleName (st, succ, fails) uid
          = ({ st with users := st.users.map (fun v =>
                if v.id == uid then { v with role := roleName } else v) },
             succ ++ [uid], fails) := by
        unfold bulkStep
        rw [hfind]
      rw [hstep] at hp'
      rw [hstep]
      obtain ⟨h1, h2⟩ := ih _ (succ ++ [uid]) fails hp'
      constructor
      · rw [h1]
        have hcons : List.filter (fun u => userPresent s u) (uid :: rest)
            = uid :: List.filter (fun u => userPresent s u) rest :=
          List.filter_cons_of_pos (by simp [hup])
        rw [hcons]
        simp
      · rw [h2]
        have hcons : List.filter (fun u => !(userPresent s u)) (uid :: rest)
            = List.filter (fun u => !(userPresent s u)) rest :=
          List.filter_cons_of_neg (by simp [hup])
        rw [hcons]

/-- C6: once the batch-level checks pass (active role, resolvable and
permitted assigner), bulkAssignRole returns ok — never an error for the
whole batch — with `success` the resolvable ids in order and `failed` one
attributed "User not found" entry per unresolvable id. -/
theorem bulkAssignRole_collects_failures (s : Store) (input : BulkAssignRoleInput)
    (assignedBy : String) (role : RoleRecord) (au : UserRecord)
    (hrole : Role_findOne_byNameActive s input.roleName = some role)
    (hau : User_findById s assignedBy = some au)
    (hperm : canAssignRole au.role input.roleName = true) :
    (bulkAssignRole s input assignedBy).map (fun out => (out.2.1, out.2.2))
      = .ok (input.userIds.filter (fun uid => userPresent s uid),
             (input.userIds.filter (fun uid => !(userPresent s uid))).map
               (fun uid => { userId := uid, error := "User not found" })) := by
  obtain ⟨h1, h2⟩ := bulkFold_spec input.roleName s input.userIds s [] [] (fun x => rfl)
  rw [List.nil_append] at h1
  rw [List.nil_append] at h2
  simp [bulkAssignRole, hrole, hau, hperm, Except.map, h1, h2]

/-- Witness for C6: two resolvable ids and one ghost id on the seeded
store; success has length 2 and failed pins the ghost id. -/
theorem bulkAssignRole_collects_failures_witness :
    (bulkAssignRole storeWithModerator
        { userIds := ["u1", "adm1", "ghost"], roleName := "student" } "adm1").map
        (fun out => (out.2.1, out.2.2))
      = .ok (["u1", "adm1"], [{ userId := "ghost", error := "User not found" }]) :=
  bulkAssignRole_collects_failures storeWithModerator
    { userIds := ["u1", "adm1", "ghost"], roleName := "student" } "adm1" _ _ rfl rfl rfl

/-- After a Map replacement at a present key, lookup of the key yields the
new entry. -/
theorem find?_key_map_set (l : List (String × RateEntry)) (k : String) (e : RateEntry)
    (h : l.any (fun kv => kv.1 == k) = true) :
    (l.map (fun kv => if kv.1 == k then (k, e) else kv)).find? (fun kv => kv.1 == k)
      = some (k, e) := by
  induction l with
  | nil => cases h
  | cons a t ih =>
    rw [List.map_cons]
    by_cases ha : (a.1 == k) = true
    · rw [if_pos ha]
      have hk : ((k, e).1 == k) = true := by simp
      exact List.find?_cons_of_pos _ hk
    · rw [if_neg ha]
      have ht : t.any (fun kv => kv.1 == k) = true := by
        rw [List.any_cons] at h
        simpa [ha] using h
      have h1 : List.find? (fun kv => kv.1 == k)
          (a :: t.map (fun kv => if kv.1 == k then (k, e) else kv))
          = List.find? (fun kv => kv.1 == k)
            (t.map (fun kv => if kv.1 == k then (k, e) else kv)) :=
        List.find?_cons_of_neg _ ha
      rw [h1]
      exact ih ht

/-- After a Map append of an absent key, lookup of the key yields the new
entry. -/
theorem find?_key_append_mk (l : List (String × RateEntry)) (k : String) (e : RateEntry)
    (h : l.find? (fun kv => kv.1 == k) = none) :
    (l ++ [(k, e)]).find? (fun kv => kv.1 == k) = some (k, e) := by
  rw [List.find?_append, h]
  simp

/-- attempts.get after attempts.set at the same key. -/
theorem attemptsGet_set (st : RateState) (k : String) (e : RateEntry) :
    attemptsGet (attemptsSet st k e) k = some e := by
  unfold attemptsGet attemptsSet
  by_cases h : st.attempts.any (fun kv => kv.1 == k) = true
  · rw [if_pos h, find?_key_map_set st.attempts k e h]
    rfl
  · rw [if_neg h]
    have hn : st.attempts.find? (fun kv => kv.1 == k) = none := by
      rw [List.find?_eq_none]
      intro x hx hpx
      exact h (List.any_eq_true.mpr ⟨x, hx, hpx⟩)
    rw [find?_key_append_mk st.attempts k e hn]
    rfl

/-- Rate limiter step on a fresh key: window opened with count 1. -/
theorem rateLimitAuth_fresh (m W : Nat) (st : RateState) (ip email : String) (t : Nat)
    (h : attemptsGet st (rateLimitKey ip email) = none) :
    rateLimitAuth m W st ip email t
      = (attemptsSet st (rateLimitKey ip email) { count := 1, resetTime := t + W },
         .next) := by
  simp [rateLimitAuth, h]

/-- Rate limiter step inside the window below the limit: increment. -/
theorem rateLimitAuth_incr (m W : Nat) (st : RateState) (ip email : String)
    (t c c' reset : Nat)
    (h : attemptsGet st (rateLimitKey ip email) = some { count := c, resetTime := reset })
    (h1 : ¬ reset < t) (h2 : ¬ m ≤ c) (hc : c + 1 = c') :
    rateLimitAuth m W st ip email t
      = (attemptsSet st (rateLimitKey ip email) { count := c', resetTime := reset },
         .next) := by
  subst hc
  simp [rateLimitAuth, h, h1, h2]

/-- Rate limiter step inside the window at the limit: 429 with the ceiled
minutes hint, state untouched. -/
theorem rateLimitAuth_reject (m W : Nat) (st : RateState) (ip email : String)
    (t c reset : Nat)
    (h : attemptsGet st (rateLimitKey ip email) = some { count := c, resetTime := reset })
    (h1 : ¬ reset < t) (h2 : m ≤ c) :
    rateLimitAuth m W st ip email t = (st, .tooMany ((reset - t + 59999) / 60000)) := by
  simp [rateLimitAuth, h, h1, h2]

/-- Rate limiter step after the window elapsed: the counter restarts. -/
theorem rateLimitAuth_reset (m W : Nat) (st : RateState) (ip email : String)
    (t c reset : Nat)
    (h : attemptsGet st (rateLimitKey ip email) = some { count := c, resetTime := reset })
    (h1 : reset < t) :
    rateLimitAuth m W st ip email t
      = (attemptsSet st (rateLimitKey ip email) { count := 1, resetTime := t + W },
         .next) := by
  simp [rateLimitAuth, h, h1]

/-- C9: with the default limit 5 over a window of W milliseconds, a key
unseen in the state gets five requests through, the sixth inside the
window is rejected with the ceiled remaining-minutes hint, and a request
after the window elapses resets the counter to 1 and is allowed. -/
theorem rateLimitAuth_window (W : Nat) (ip email : String) (st0 : RateState)
    (t0 t1 t2 t3 t4 t5 t6 : Nat)
    (hfresh : attemptsGet st0 (rateLimitKey ip email) = none)
    (h1 : t1 ≤ t0 + W) (h2 : t2 ≤ t0 + W) (h3 : t3 ≤ t0 + W) (h4 : t4 ≤ t0 + W)
    (h5 : t5 ≤ t0 + W) (h6 : t0 + W < t6) :
    (runRateLimiter 5 W ip email st0 [t0, t1, t2, t3, t4, t5, t6]).2
      = [.next, .next, .next, .next, .next,
         .tooMany ((t0 + W - t5 + 59999) / 60000), .next]
    ∧ attemptsGet (runRateLimiter 5 W ip email st0 [t0, t1, t2, t3, t4, t5, t6]).1
        (rateLimitKey ip email) = some { count := 1, resetTime := t6 + W } := by
  have hn1 : ¬ (t0 + W < t1) := by omega
  have hn2 : ¬ (t0 + W < t2) := by omega
  have hn3 : ¬ (t0 + W < t3) := by omega
  have hn4 : ¬ (t0 + W < t4) := by omega
  have hn5 : ¬ (t0 + W < t5) := by omega
  simp only [runRateLimiter]
  rw [rateLimitAuth_fresh 5 W st0 ip email t0 hfresh]
  dsimp only
  rw [rateLimitAuth_incr 5 W _ ip email t1 1 2 (t0 + W) (attemptsGet_set _ _ _) hn1
      (by omega) rfl]
  dsimp only
  rw [rateLimitAuth_incr 5 W _ ip email t2 2 3 (t0 + W) (attemptsGet_set _ _ _) hn2
      (by omega) rfl]
  dsimp only
  rw [rateLimitAuth_incr 5 W _ ip email t3 3 4 (t0 + W) (attemptsGet_set _ _ _) hn3
      (by omega) rfl]
  dsimp only
  rw [rateLimitAuth_incr 5 W _ ip email t4 4 5 (t0 + W) (attemptsGet_set _ _ _) hn4
      (by omega) rfl]
  dsimp only
  rw [rateLimitAuth_reject 5 W _ ip email t5 5 (t0 + W) (attemptsGet_set _ _ _) hn5
      (by omega)]
  dsimp only
  rw [rateLimitAuth_reset 5 W _ ip email t6 5 (t0 + W) (attemptsGet_set _ _ _) h6]
  dsimp only
  exact ⟨rfl, attemptsGet_set _ _ _⟩

/-- Witness for C9: a concrete run with the default 15-minute window from
the empty map; the hint computes to 15 minutes. -/
theorem rateLimitAuth_window_witness :
    (runRateLimiter 5 900000 "1.2.3.4" "a@b.c" { attempts := [] }
        [0, 1, 2, 3, 4, 5, 900001]).2
      = [.next, .next, .next, .next, .next, .tooMany 15, .next]
    ∧ attemptsGet (runRateLimiter 5 900000 "1.2.3.4" "a@b.c" { attempts := [] }
        [0, 1, 2, 3, 4, 5, 900001]).1 (rateLimitKey "1.2.3.4" "a@b.c")
      = some { count := 1, resetTime := 1800001 } :=
  rateLimitAuth_window 900000 "1.2.3.4" "a@b.c" { attempts := [] }
    0 1 2 3 4 5 900001 rfl (by omega) (by omega) (by omega) (by omega) (by omega)
    (by omega)

end HostelRBAC
